import Mathlib

/-!
Verification of the ContractScrapper change-detection and cross-reference pipeline.

The Python sources are shallowly embedded:
a Python dict is an insertion-ordered association list with unique keys,
fallible code returns Except, and the browser/network environment is passed
in explicitly (row texts, search-result header texts, search oracles).
-/

/-- Python exception categories raised by the embedded code paths. -/
inductive PyErr where
  | indexError
  | valueError
  | sendError (msg : String)

/-- A Python dict (string keys and values): insertion-ordered entry list. -/
abbrev PyDict := List (String × String)

/-- Membership test by key, the embedding of the Python test k in d. -/
def containsKey (k : String) (d : PyDict) : Bool :=
  d.any (fun p => p.1 == k)

/-- The keys of a dict in insertion order. -/
def pyKeys (d : PyDict) : List String :=
  d.map (fun p => p.1)

/-- Python dict assignment d[k] = v: overwrite in place when the key exists,
append a fresh entry otherwise. -/
def pyInsert (d : PyDict) (k v : String) : PyDict :=
  if containsKey k d then d.map (fun p => if p.1 == k then (p.1, v) else p)
  else d ++ [(k, v)]

/-- State of the dict-comprehension in dict_complement_b
(common/helpers.py lines 28-41): the two argument dicts and the dict
being built. -/
structure CompState where
  old_dict : PyDict
  new_dict : PyDict
  b_complement : PyDict

/-- One iteration of the comprehension body for a key k drawn from new_dict:
if k not in old_dict then b_complement[k] = new_dict[k]. -/
def dict_comp_step (s : CompState) (k : String) : CompState :=
  if containsKey k s.old_dict then s
  else
    match List.lookup k s.new_dict with
    | some v => { s with b_complement := pyInsert s.b_complement k v }
    | none => s

/-- Run the comprehension of dict_complement_b over the keys of new_dict. -/
def dict_complement_run (old_dict new_dict : PyDict) : CompState :=
  (pyKeys new_dict).foldl dict_comp_step ⟨old_dict, new_dict, []⟩

/-- dict_complement_b (common/helpers.py lines 28-41): the relative
complement of old_dict in new_dict, built by the comprehension. -/
def dict_complement_b (old_dict new_dict : PyDict) : PyDict :=
  (dict_complement_run old_dict new_dict).b_complement

/-- The space character used by re.split in the sources. -/
def spaceChar : Char := Char.ofNat 32

/-- Embedding of Python re.split with a single-character pattern:
split at every occurrence, keeping empty pieces; never returns an
empty list. -/
def pySplitAux (sep : Char) : List Char → List Char → List (List Char)
  | [], cur => [cur.reverse]
  | c :: cs, cur =>
    if c == sep then cur.reverse :: pySplitAux sep cs []
    else pySplitAux sep cs (c :: cur)

/-- re.split(sep, l) for a one-character pattern. -/
def pySplit (sep : Char) (l : List Char) : List (List Char) :=
  pySplitAux sep l []

/-- re.split(" ", s) on a row or record text. -/
def pyTokens (s : String) : List String :=
  (pySplit spaceChar s.data).map (fun cs => String.mk cs)

/-- re.split(" ", row)[0]: the first whitespace-delimited token of a row
text, used as the snapshot key (always exists since split is non-empty). -/
def firstToken (row : String) : String :=
  match pyTokens row with
  | [] => ""
  | t :: _ => t

/-- The loop of get_last_n_contracts (common/helpers.py lines 269-274):
for number in range(n): row = rows[number]; dict[split(row)[0]] = row.
Indexing past the end of rows raises IndexError. -/
def get_last_n_aux (rows : List String) : Nat → Nat → PyDict → Except PyErr PyDict
  | _, 0, acc => .ok acc
  | i, rem + 1, acc =>
    match rows.get? i with
    | none => .error PyErr.indexError
    | some row => get_last_n_aux rows (i + 1) rem (pyInsert acc (firstToken row) row)

/-- get_last_n_contracts (common/helpers.py lines 246-276), applied to the
row texts the rendered listing table provides. -/
def get_last_n_contracts (rows : List String) (n : Nat) : Except PyErr PyDict :=
  get_last_n_aux rows 0 n []

/-- The comma character of the regex class in github_search. -/
def commaChar : Char := Char.ofNat 44

/-- The dot character of the regex class in github_search. -/
def dotChar : Char := Char.ofNat 46

/-- A character matched by the regex [0-9,.] in github_search. -/
def isGroupChar (c : Char) : Bool :=
  c.isDigit || c == commaChar || c == dotChar

/-- regex.findall("([0-9,.]+)", text)[0]: the first maximal run of class
characters, none when the text holds no such character (where the Python
indexing [0] raises IndexError). -/
def firstGroup : List Char → Option (List Char)
  | [] => none
  | c :: cs =>
    if isGroupChar c then some (c :: cs.takeWhile isGroupChar)
    else firstGroup cs

/-- re.sub(",", "", number): strip thousands separators. -/
def stripCommas (l : List Char) : List Char :=
  l.filter (fun c => !(c == commaChar))

/-- Value of a decimal digit string. -/
def digitsToNat (l : List Char) : Nat :=
  l.foldl (fun acc c => acc * 10 + (c.toNat - 48)) 0

/-- Python int(s): the value when s is a non-empty digit string, a
ValueError otherwise. -/
def pyInt (l : List Char) : Except PyErr Nat :=
  if !l.isEmpty && l.all Char.isDigit then .ok (digitsToNat l)
  else .error PyErr.valueError

/-- Whether the needle occurs as a contiguous substring of the haystack,
the embedding of the Python test needle in text. -/
def containsSub (needle hay : List Char) : Bool :=
  hay.tails.any (fun t => needle.isPrefixOf t)

/-- The no-results phrase tested by github_search
(common/helpers.py line 322, embedded byte-for-byte). -/
def couldNotFindPhrase : String := "We couldnâ€™t find any"

/-- Whether the result header carries the no-results phrase. -/
def couldNotFind (text : String) : Bool :=
  containsSub couldNotFindPhrase.data text.data

/-- The result-count parse of github_search (common/helpers.py lines
326-328): first [0-9,.] group of the header (IndexError when absent),
commas stripped, converted by int (ValueError when not a digit string). -/
def github_parse_count (text : String) : Except PyErr Nat :=
  match firstGroup text.data with
  | none => .error PyErr.indexError
  | some grp => pyInt (stripCommas grp)

/-- The decision core of github_search (common/helpers.py lines 321-333),
applied to the rendered result header text, the limit, and the current
results-page URL: the no-results phrase yields no match, a parsed count
above the limit yields no match, otherwise the results-page URL is the
match; parse failures raise. -/
def github_search (result_text : String) (limit : Nat) (current_url : String) :
    Except PyErr (Option String) :=
  if couldNotFind result_text then .ok none
  else
    match github_parse_count result_text with
    | .error e => .error e
    | .ok number => if number > limit then .ok none else .ok (some current_url)

/-- One invocation outcome of a function wrapped by
driver_wait_exception_handler: a returned value, a raised
WebDriverException (the transient fetch category, which includes
TimeoutException as a subclass), or any other raised exception. -/
inductive CallOutcome (α : Type) where
  | success (v : α)
  | transient
  | structural (e : String)

/-- Observable result of running the wrapper against a trace of outcomes:
a returned value or a propagated exception, each with the number of
sleep waits performed and the number of invocations consumed; pending
when the trace ran out while the wrapper was still retrying. -/
inductive RunResult (α : Type) where
  | returns (v : α) (waits attempts : Nat)
  | raises (e : String) (waits attempts : Nat)
  | pending

/-- The wrapper loop of driver_wait_exception_handler
(common/exceptions.py lines 74-93): invoke the function; on the caught
transient category sleep and retry; on success break and return; any
other exception propagates out of the try immediately. -/
def driver_wait_exception_handler {α : Type} : List (CallOutcome α) → RunResult α
  | [] => .pending
  | .success v :: _ => .returns v 0 1
  | .structural e :: _ => .raises e 0 1
  | .transient :: rest =>
    match driver_wait_exception_handler rest with
    | .returns v w a => .returns v (w + 1) (a + 1)
    | .raises e w a => .raises e (w + 1) (a + 1)
    | .pending => .pending

/-- Externally visible effects of processing one novel record in
contract_scraping: search terms issued in order, notification messages
delivered, and log entries written. -/
structure RecordTrace where
  searches : List String
  messages : List String
  logs : List (Option String × String)

/-- The notification text built in contract_scraping. -/
def newContractMessage (web_url found : String) : String :=
  "\nNew " ++ web_url ++ " Contract on Github:\n" ++ found

/-- The per-record body of contract_scraping (common/helpers.py lines
367-397): split the record text, search by address, on a match notify
and log, otherwise search by name and notify/log likewise; a missing
second token raises IndexError, a raising notification send propagates.
The search oracle gives each github_search call's returned value and the
send function models telegram_send_message. -/
def contract_scraping_record (search : String → Option String)
    (send : String → Except String Unit) (web_url value : String) :
    RecordTrace × Option PyErr :=
  match pyTokens value with
  | contract_address :: contract_name :: _ =>
    match search contract_address with
    | some found =>
      match send (newContractMessage web_url found) with
      | .ok _ =>
        (⟨[contract_address], [newContractMessage web_url found], [(some found, value)]⟩, none)
      | .error e => (⟨[contract_address], [], []⟩, some (PyErr.sendError e))
    | none =>
      match search contract_name with
      | some found =>
        match send (newContractMessage web_url found) with
        | .ok _ =>
          (⟨[contract_address, contract_name], [newContractMessage web_url found],
            [(some found, value)]⟩, none)
        | .error e =>
          (⟨[contract_address, contract_name], [], []⟩, some (PyErr.sendError e))
      | none => (⟨[contract_address, contract_name], [], [(none, value)]⟩, none)
  | _ => (⟨[], [], []⟩, some PyErr.indexError)

/-- The per-cycle loop of contract_scraping over the novel records:
process each record in order; an uncaught exception from a record stops
the loop (and the cycle) there. -/
def contract_scraping_cycle (search : String → Option String)
    (send : String → Except String Unit) (web_url : String) :
    List (String × String) → RecordTrace × Option PyErr
  | [] => (⟨[], [], []⟩, none)
  | (_, value) :: rest =>
    match (contract_scraping_record search send web_url value).2 with
    | some e => ((contract_scraping_record search send web_url value).1, some e)
    | none =>
      (⟨(contract_scraping_record search send web_url value).1.searches ++
          (contract_scraping_cycle search send web_url rest).1.searches,
        (contract_scraping_record search send web_url value).1.messages ++
          (contract_scraping_cycle search send web_url rest).1.messages,
        (contract_scraping_record search send web_url value).1.logs ++
          (contract_scraping_cycle search send web_url rest).1.logs⟩,
        (contract_scraping_cycle search send web_url rest).2)

/-! ### Properties of the dict complement -/

theorem dict_comp_step_old (s : CompState) (k : String) :
    (dict_comp_step s k).old_dict = s.old_dict := by
  unfold dict_comp_step
  split
  · rfl
  · split <;> rfl

theorem dict_comp_step_new (s : CompState) (k : String) :
    (dict_comp_step s k).new_dict = s.new_dict := by
  unfold dict_comp_step
  split
  · rfl
  · split <;> rfl

theorem foldl_dict_comp_step_frame (ks : List String) :
    ∀ s : CompState, (ks.foldl dict_comp_step s).old_dict = s.old_dict ∧
      (ks.foldl dict_comp_step s).new_dict = s.new_dict := by
  induction ks with
  | nil => intro s; exact ⟨rfl, rfl⟩
  | cons k t ih =>
    intro s
    have h := ih (dict_comp_step s k)
    simp only [List.foldl_cons]
    exact ⟨h.1.trans (dict_comp_step_old s k), h.2.trans (dict_comp_step_new s k)⟩

theorem containsKey_append (k : String) (d1 d2 : PyDict) :
    containsKey k (d1 ++ d2) = (containsKey k d1 || containsKey k d2) := by
  unfold containsKey
  exact List.any_append

theorem dict_complement_run_general (A B : PyDict) :
    ∀ (ks : List String) (acc : PyDict), ks.Nodup →
      (∀ k ∈ ks, containsKey k acc = false) →
      (ks.foldl dict_comp_step ⟨A, B, acc⟩).b_complement
        = acc ++ ks.filterMap (fun k =>
            if containsKey k A then none
            else (List.lookup k B).map (fun v => (k, v))) := by
  intro ks
  induction ks with
  | nil =>
    intro acc _ _
    simp
  | cons k t ih =>
    intro acc hnodup hacc
    have hkt : k ∉ t := (List.nodup_cons.mp hnodup).1
    have htn : t.Nodup := (List.nodup_cons.mp hnodup).2
    have hk : containsKey k acc = false := hacc k (List.mem_cons_self k t)
    simp only [List.foldl_cons]
    by_cases hA : containsKey k A
    · have hstep : dict_comp_step ⟨A, B, acc⟩ k = ⟨A, B, acc⟩ := by
        unfold dict_comp_step
        simp [hA]
      rw [hstep, ih acc htn (fun k2 hk2 => hacc k2 (List.mem_cons_of_mem k hk2))]
      simp [List.filterMap_cons, hA]
    · cases hlook : List.lookup k B with
      | none =>
        have hstep : dict_comp_step ⟨A, B, acc⟩ k = ⟨A, B, acc⟩ := by
          unfold dict_comp_step
          simp [hA, hlook]
        rw [hstep, ih acc htn (fun k2 hk2 => hacc k2 (List.mem_cons_of_mem k hk2))]
        simp [List.filterMap_cons, hA, hlook]
      | some v =>
        have hstep : dict_comp_step ⟨A, B, acc⟩ k = ⟨A, B, acc ++ [(k, v)]⟩ := by
          unfold dict_comp_step
          simp [hA, hlook, pyInsert, hk]
        rw [hstep]
        have hacc2 : ∀ k2 ∈ t, containsKey k2 (acc ++ [(k, v)]) = false := by
          intro k2 hk2
          rw [containsKey_append]
          have h1 : containsKey k2 acc = false := hacc k2 (List.mem_cons_of_mem k hk2)
          have hne : k ≠ k2 := fun he => hkt (he ▸ hk2)
          have h2 : containsKey k2 [(k, v)] = false := by
            unfold containsKey
            simp [hne]
          rw [h1, h2]
          rfl
        rw [ih (acc ++ [(k, v)]) htn hacc2]
        simp [List.filterMap_cons, hA, hlook, List.append_assoc]

theorem list_filterMap_congr {α β : Type} {f g : α → Option β} :
    ∀ {l : List α}, (∀ x ∈ l, f x = g x) → l.filterMap f = l.filterMap g
  | [], _ => rfl
  | a :: l, h => by
    rw [List.filterMap_cons, List.filterMap_cons, h a (List.mem_cons_self a l),
      list_filterMap_congr (fun x hx => h x (List.mem_cons_of_mem a hx))]

theorem filterMap_keys_lookup (A : PyDict) :
    ∀ B : PyDict, (pyKeys B).Nodup →
      (pyKeys B).filterMap (fun k =>
          if containsKey k A then none
          else (List.lookup k B).map (fun v => (k, v)))
        = B.filter (fun p => !(containsKey p.1 A)) := by
  intro B
  induction B with
  | nil => intro _; rfl
  | cons p rest ih =>
    intro hnodup
    obtain ⟨k0, v0⟩ := p
    have hkeys : pyKeys ((k0, v0) :: rest) = k0 :: pyKeys rest := rfl
    rw [hkeys] at hnodup
    have h1 : k0 ∉ pyKeys rest := (List.nodup_cons.mp hnodup).1
    have h2 : (pyKeys rest).Nodup := (List.nodup_cons.mp hnodup).2
    have hcong : (pyKeys rest).filterMap (fun k =>
          if containsKey k A then none
          else (List.lookup k ((k0, v0) :: rest)).map (fun v => (k, v)))
        = (pyKeys rest).filterMap (fun k =>
          if containsKey k A then none
          else (List.lookup k rest).map (fun v => (k, v))) := by
      apply list_filterMap_congr
      intro k hk
      have hne : k ≠ k0 := fun he => h1 (he ▸ hk)
      have hb : (k == k0) = false := by simp [hne]
      rw [List.lookup_cons]
      simp [hb]
    rw [hkeys, List.filterMap_cons]
    by_cases hA : containsKey k0 A
    · simp only [hA, if_true]
      rw [hcong, ih h2, List.filter_cons_of_neg (by simp [hA])]
    · simp only [hA, if_false]
      rw [List.lookup_cons_self, hcong, ih h2, List.filter_cons_of_pos (by simp [hA])]
      rfl

theorem dict_complement_b_eq_filter (A B : PyDict) (hB : (pyKeys B).Nodup) :
    dict_complement_b A B = B.filter (fun p => !(containsKey p.1 A)) := by
  unfold dict_complement_b dict_complement_run
  rw [dict_complement_run_general A B (pyKeys B) [] hB (fun k _ => rfl)]
  rw [filterMap_keys_lookup A B hB]
  simp

theorem lookup_filter_key (A : PyDict) :
    ∀ (B : PyDict) (k : String),
      List.lookup k (B.filter (fun p => !(containsKey p.1 A)))
        = if containsKey k A then none else List.lookup k B := by
  intro B
  induction B with
  | nil =>
    intro k
    cases h : containsKey k A <;> simp [h]
  | cons p rest ih =>
    intro k
    obtain ⟨k0, v0⟩ := p
    by_cases hk0 : containsKey k0 A
    · rw [List.filter_cons_of_neg (by simp [hk0])]
      rw [ih k]
      by_cases hkk : (k == k0) = true
      · have he : k = k0 := by simpa using hkk
        subst he
        simp [hk0, List.lookup_cons]
      · rw [List.lookup_cons]
        simp only [Bool.not_eq_true] at hkk
        simp [hkk]
    · rw [List.filter_cons_of_pos (by simp [hk0])]
      by_cases hkk : (k == k0) = true
      · have he : k = k0 := by simpa using hkk
        subst he
        simp [List.lookup_cons, hk0]
      · rw [List.lookup_cons, ih k, List.lookup_cons]
        simp only [Bool.not_eq_true] at hkk
        simp [hkk]

theorem containsKey_perm (k : String) {A A2 : PyDict} (h : A.Perm A2) :
    containsKey k A = containsKey k A2 := by
  unfold containsKey
  rw [Bool.eq_iff_iff]
  simp only [List.any_eq_true]
  constructor
  · rintro ⟨p, hp, hpk⟩
    exact ⟨p, h.mem_iff.mp hp, hpk⟩
  · rintro ⟨p, hp, hpk⟩
    exact ⟨p, h.mem_iff.mpr hp, hpk⟩

/-- Claim C1: the novelty detector is a pure set complement by key: for
all dicts A (previous snapshot) and B (current snapshot) with B's keys
unique (the snapshot invariant), looking any key up in
dict_complement_b A B gives nothing when the key is in A and exactly B's
value for it otherwise; in particular a key present in both A and B is
never included, even when the raw texts under it differ. -/
theorem dict_complement_b_key_complement (A B : PyDict)
    (hB : (pyKeys B).Nodup) (k : String) :
    List.lookup k (dict_complement_b A B)
      = if containsKey k A then none else List.lookup k B := by
  rw [dict_complement_b_eq_filter A B hB]
  exact lookup_filter_key A B k

theorem dict_complement_b_key_complement_witness :
    (pyKeys [("0x1", "0x1 Bar"), ("0x2", "0x2 Baz")]).Nodup ∧
      List.lookup "0x1"
          (dict_complement_b [("0x1", "0x1 Foo")] [("0x1", "0x1 Bar"), ("0x2", "0x2 Baz")])
        = (if containsKey "0x1" [("0x1", "0x1 Foo")] then none
           else List.lookup "0x1" [("0x1", "0x1 Bar"), ("0x2", "0x2 Baz")]) :=
  ⟨by decide,
    dict_complement_b_key_complement [("0x1", "0x1 Foo")]
      [("0x1", "0x1 Bar"), ("0x2", "0x2 Baz")] (by decide) "0x1"⟩

/-- Claim C8: for all snapshots A and B (B with unique keys), the novelty
result dict_complement_b A B lists its entries in B's insertion order
restricted to the novel keys (its key sequence is a subsequence of B's
key sequence), and the result is independent of A's order: permuting A
leaves it unchanged. -/
theorem dict_complement_b_order_preserved (A A2 B : PyDict)
    (hB : (pyKeys B).Nodup) (hperm : A.Perm A2) :
    List.Sublist (pyKeys (dict_complement_b A B)) (pyKeys B) ∧
      dict_complement_b A B = dict_complement_b A2 B := by
  constructor
  · rw [dict_complement_b_eq_filter A B hB]
    unfold pyKeys
    exact (List.filter_sublist B).map _
  · rw [dict_complement_b_eq_filter A B hB, dict_complement_b_eq_filter A2 B hB]
    apply List.filter_congr
    intro p _
    rw [containsKey_perm p.1 hperm]

theorem dict_complement_b_order_preserved_witness :
    (pyKeys [("b", "b Bar"), ("c", "c Baz")]).Nodup ∧
      List.Perm [("a", "1"), ("b", "2")] [("b", "2"), ("a", "1")] ∧
      (List.Sublist
          (pyKeys (dict_complement_b [("a", "1"), ("b", "2")] [("b", "b Bar"), ("c", "c Baz")]))
          (pyKeys [("b", "b Bar"), ("c", "c Baz")]) ∧
        dict_complement_b [("a", "1"), ("b", "2")] [("b", "b Bar"), ("c", "c Baz")]
          = dict_complement_b [("b", "2"), ("a", "1")] [("b", "b Bar"), ("c", "c Baz")]) :=
  ⟨by decide, by decide,
    dict_complement_b_order_preserved [("a", "1"), ("b", "2")] [("b", "2"), ("a", "1")]
      [("b", "b Bar"), ("c", "c Baz")] (by decide) (by decide)⟩

/-- Claim C9: dict_complement_b never mutates its arguments: running the
comprehension leaves the old_dict and new_dict bindings exactly as they
were (only the fresh b_complement dict is written). -/
theorem dict_complement_b_no_mutation (A B : PyDict) :
    (dict_complement_run A B).old_dict = A ∧ (dict_complement_run A B).new_dict = B := by
  unfold dict_complement_run
  exact foldl_dict_comp_step_frame (pyKeys B) ⟨A, B, []⟩

/-! ### Retry wrapper -/

/-- Claim C3: the resilient call wrapper retries only transient fetch
errors and never gives up on them: a trace of n transient failures
followed by a success returns the success value after exactly n waits
(and n+1 invocations), and a trace starting with any non-transient
exception propagates it immediately, with no wait and no further
invocation. -/
theorem driver_wait_retry_semantics {α : Type} (n : Nat) (v : α)
    (rest rest2 : List (CallOutcome α)) (e : String) :
    driver_wait_exception_handler
        (List.replicate n CallOutcome.transient ++ CallOutcome.success v :: rest)
      = RunResult.returns v n (n + 1) ∧
    driver_wait_exception_handler (CallOutcome.structural e :: rest2)
      = RunResult.raises e 0 1 := by
  constructor
  · induction n with
    | zero => rfl
    | succ m ih =>
      rw [List.replicate_succ, List.cons_append]
      show (match driver_wait_exception_handler
          (List.replicate m CallOutcome.transient ++ CallOutcome.success v :: rest) with
        | RunResult.returns v w a => RunResult.returns v (w + 1) (a + 1)
        | RunResult.raises e w a => RunResult.raises e (w + 1) (a + 1)
        | RunResult.pending => RunResult.pending) = RunResult.returns v (m + 1) (m + 1 + 1)
      rw [ih]
  · rfl

/-! ### Listing snapshotter -/

theorem get_last_n_aux_short (rows : List String) :
    ∀ (fuel i : Nat) (acc : PyDict), i ≤ rows.length → rows.length < i + fuel →
      get_last_n_aux rows i fuel acc = Except.error PyErr.indexError := by
  intro fuel
  induction fuel with
  | zero =>
    intro i acc hle hlt
    omega
  | succ rem ih =>
    intro i acc hle hlt
    cases hg : rows.get? i with
    | none =>
      unfold get_last_n_aux
      rw [hg]
    | some row =>
      have hi : i < rows.length := by
        have := List.get?_eq_some.mp hg
        exact this.1
      unfold get_last_n_aux
      rw [hg]
      exact ih (i + 1) _ hi (by omega)

/-- Claim C4 counterexample: a listing page rendering one row, asked for
two, does not return the single available row: get_last_n_contracts
raises IndexError. -/
theorem get_last_n_contracts_counterexample :
    get_last_n_contracts ["0x1 Foo 12 ETH"] 2 = Except.error PyErr.indexError := rfl

/-- Claim C4 (amended): for every listing page that renders with m rows
where m < n, get_last_n_contracts raises IndexError (the loop indexes
rows[number] for every number below n unconditionally) instead of
returning the m available rows. -/
theorem get_last_n_contracts_short_page_raises (rows : List String) (n : Nat)
    (h : rows.length < n) :
    get_last_n_contracts rows n = Except.error PyErr.indexError := by
  unfold get_last_n_contracts
  exact get_last_n_aux_short rows n 0 [] (Nat.zero_le _) (by omega)

theorem get_last_n_contracts_short_page_raises_witness :
    (["0x1 Foo 12 ETH"] : List String).length < 3 ∧
      get_last_n_contracts ["0x1 Foo 12 ETH"] 3 = Except.error PyErr.indexError :=
  ⟨by decide, get_last_n_contracts_short_page_raises ["0x1 Foo 12 ETH"] 3 (by decide)⟩

/-! ### Cross-reference searcher -/

/-- Claim C2: the admission threshold is applied with strict inequality.
The external search page reports a zero count by rendering the
could-not-find phrase and a positive count as digits, so the parsed
result count c of a header is 0 exactly when the header carries the
phrase; under that reading, the search matches (returns the results-page
URL) exactly when 0 < c and c is at most the limit — in particular
c = limit is a match — and returns no match when c = 0 or c exceeds the
limit. -/
theorem github_search_admission_threshold (text url : String) (limit c : Nat)
    (hc : if couldNotFind text then c = 0
          else github_parse_count text = Except.ok c ∧ 0 < c) :
    github_search text limit url
      = Except.ok (if 0 < c ∧ c ≤ limit then some url else none) := by
  by_cases h : couldNotFind text = true
  · rw [if_pos h] at hc
    subst hc
    unfold github_search
    rw [if_pos h]
    simp
  · rw [if_neg h] at hc
    obtain ⟨hp, hpos⟩ := hc
    unfold github_search
    rw [if_neg h, hp]
    show (if c > limit then (Except.ok none : Except PyErr (Option String))
        else Except.ok (some url))
      = Except.ok (if 0 < c ∧ c ≤ limit then some url else none)
    by_cases hl : c ≤ limit
    · rw [if_neg (by omega : ¬c > limit), if_pos ⟨hpos, hl⟩]
    · rw [if_pos (by omega : c > limit), if_neg (fun hand => hl hand.2)]

theorem github_search_admission_threshold_witness :
    (if couldNotFind "7 repository results" then (7 : Nat) = 0
     else github_parse_count "7 repository results" = Except.ok 7 ∧ 0 < 7) ∧
      github_search "7 repository results" 7 "https://github.com/search?q=a"
        = Except.ok (some "https://github.com/search?q=a") := by
  have hnf : couldNotFind "7 repository results" = false := by decide
  have hc : (if couldNotFind "7 repository results" then (7 : Nat) = 0
      else github_parse_count "7 repository results" = Except.ok 7 ∧ 0 < 7) := by
    simp only [hnf, Bool.false_eq_true, if_false]
    exact ⟨rfl, by decide⟩
  refine ⟨hc, ?_⟩
  have h2 := github_search_admission_threshold "7 repository results"
    "https://github.com/search?q=a" 7 7 hc
  simpa using h2

theorem firstGroup_none_of_no_group (l : List Char) (h : ∀ c ∈ l, isGroupChar c = false) :
    firstGroup l = none := by
  induction l with
  | nil => rfl
  | cons c cs ih =>
    unfold firstGroup
    simp only [h c (List.mem_cons_self c cs), Bool.false_eq_true, if_false]
    exact ih (fun x hx => h x (List.mem_cons_of_mem c hx))

/-- Claim C6 counterexample: a result header with no digit group (and
without the no-results phrase) makes github_search raise an uncaught
IndexError instead of returning no match. -/
theorem github_search_parse_failure_counterexample :
    github_search "Repository search results" 7 "https://github.com/search?q=a"
      = Except.error PyErr.indexError := rfl

/-- Claim C6 (amended): for every search whose result-count indicator
holds no character of the regex class [0-9,.] (no digit group), the
search returns no match only when the header carries the no-results
phrase; otherwise the count parse raises an uncaught IndexError. -/
theorem github_search_parse_failure_raises (text url : String) (limit : Nat)
    (h : ∀ c ∈ text.data, isGroupChar c = false) :
    github_search text limit url
      = if couldNotFind text then Except.ok none
        else Except.error PyErr.indexError := by
  unfold github_search github_parse_count
  rw [firstGroup_none_of_no_group text.data h]

theorem github_search_parse_failure_raises_witness :
    (∀ c ∈ ("No results for query" : String).data, isGroupChar c = false) ∧
      github_search "No results for query" 7 "https://github.com/search?q=b"
        = (if couldNotFind "No results for query" then Except.ok none
           else Except.error PyErr.indexError) :=
  ⟨by decide, github_search_parse_failure_raises "No results for query"
    "https://github.com/search?q=b" 7 (by decide)⟩

/-! ### Pipeline driver -/

theorem contract_scraping_cycle_cons_error (search : String → Option String)
    (send : String → Except String Unit) (web_url k value : String)
    (more : List (String × String)) (e2 : PyErr)
    (h : (contract_scraping_record search send web_url value).2 = some e2) :
    (contract_scraping_cycle search send web_url ((k, value) :: more)).2 = some e2 := by
  simp only [contract_scraping_cycle, h]

/-- Claim C5: two-stage resolution precedence: for every novel record
whose raw text splits into an address token followed by a name token,
the searches issued while processing it are exactly the address-keyed
one when it matches (the name-keyed search is never issued), and the
address-keyed one followed by the name-keyed one when the address-keyed
search returned no match. -/
theorem contract_scraping_two_stage_precedence (search : String → Option String)
    (send : String → Except String Unit) (web_url value addr name : String)
    (ts : List String) (htok : pyTokens value = addr :: name :: ts) :
    (contract_scraping_record search send web_url value).1.searches
      = if (search addr).isSome then [addr] else [addr, name] := by
  unfold contract_scraping_record
  rw [htok]
  cases hs : search addr with
  | some found =>
    cases hsend : send (newContractMessage web_url found) <;> simp [hs, hsend]
  | none =>
    cases hn : search name with
    | some found =>
      cases hsend : send (newContractMessage web_url found) <;> simp [hs, hn, hsend]
    | none => simp [hs, hn]

theorem contract_scraping_two_stage_precedence_witness :
    pyTokens "0xA Uni" = ["0xA", "Uni"] ∧
      (contract_scraping_record
          (fun t => if t == "0xA" then some "https://github.com/r" else none)
          (fun _ => Except.ok ()) "etherscan.io" "0xA Uni").1.searches
        = (if ((fun t => if t == "0xA" then some "https://github.com/r" else none)
              "0xA" : Option String).isSome
           then ["0xA"] else ["0xA", "Uni"]) :=
  ⟨by decide,
    contract_scraping_two_stage_precedence
      (fun t => if t == "0xA" then some "https://github.com/r" else none)
      (fun _ => Except.ok ()) "etherscan.io" "0xA Uni" "0xA" "Uni" [] (by decide)⟩

/-- Claim C7 counterexample: when the notification send raises, the
polling cycle does not continue: processing one novel record with a
matching search and a raising send crashes the cycle with the propagated
transport error. -/
theorem contract_scraping_send_failure_counterexample :
    (contract_scraping_cycle (fun _ => some "https://github.com/found")
        (fun _ => Except.error "ConnectionError") "etherscan.io"
        [("0x1", "0x1 FooToken 0.5 ETH")]).2
      = some (PyErr.sendError "ConnectionError") := rfl

/-- Claim C7 (amended): a failure of the notification transport is not
absorbed: when sending the notification message for a matched record
raises, the exception propagates out of the record processing (no
try/except wraps telegram_send_message) and the polling cycle crashes
there instead of continuing. -/
theorem contract_scraping_send_failure_propagates (search : String → Option String)
    (send : String → Except String Unit) (web_url k value addr name url e : String)
    (ts : List String) (more : List (String × String))
    (htok : pyTokens value = addr :: name :: ts)
    (hfound : search addr = some url)
    (hsend : send (newContractMessage web_url url) = Except.error e) :
    (contract_scraping_record search send web_url value).2 = some (PyErr.sendError e) ∧
      (contract_scraping_cycle search send web_url ((k, value) :: more)).2
        = some (PyErr.sendError e) := by
  have hrec : (contract_scraping_record search send web_url value).2
      = some (PyErr.sendError e) := by
    unfold contract_scraping_record
    rw [htok]
    simp only [hfound, hsend]
  exact ⟨hrec, contract_scraping_cycle_cons_error search send web_url k value more _ hrec⟩

theorem contract_scraping_send_failure_propagates_witness :
    (contract_scraping_record (fun _ => some "https://github.com/found")
        (fun _ => Except.error "ConnectionError") "etherscan.io" "0x1 FooToken").2
      = some (PyErr.sendError "ConnectionError") ∧
    (contract_scraping_cycle (fun _ => some "https://github.com/found")
        (fun _ => Except.error "ConnectionError") "etherscan.io"
        [("0x2", "0x1 FooToken")]).2 = some (PyErr.sendError "ConnectionError") :=
  contract_scraping_send_failure_propagates
    (fun _ => some "https://github.com/found") (fun _ => Except.error "ConnectionError")
    "etherscan.io" "0x2" "0x1 FooToken" "0x1" "FooToken" "https://github.com/found"
    "ConnectionError" [] [] (by decide) rfl rfl

/-- Claim C10: if a novel record's raw text holds fewer than two
space-separated tokens, the extraction of the contract name via
re.split(" ", value)[1] raises IndexError: processing the record yields
no searches and the IndexError, and the polling cycle that reaches the
record terminates with it. -/
theorem contract_scraping_short_value_index_error (search : String → Option String)
    (send : String → Except String Unit) (web_url k value : String)
    (more : List (String × String)) (h : (pyTokens value).length < 2) :
    contract_scraping_record search send web_url value
        = (⟨[], [], []⟩, some PyErr.indexError) ∧
      (contract_scraping_cycle search send web_url ((k, value) :: more)).2
        = some PyErr.indexError := by
  have hrec : contract_scraping_record search send web_url value
      = (⟨[], [], []⟩, some PyErr.indexError) := by
    unfold contract_scraping_record
    cases htok : pyTokens value with
    | nil => rfl
    | cons a t =>
      cases t with
      | nil => rfl
      | cons b t2 =>
        rw [htok] at h
        simp only [List.length_cons] at h
        omega
  refine ⟨hrec, ?_⟩
  exact contract_scraping_cycle_cons_error search send web_url k value more _
    (by rw [hrec])

theorem contract_scraping_short_value_index_error_witness :
    (pyTokens "0xOnlyAddress").length < 2 ∧
      (contract_scraping_record (fun _ => none) (fun _ => Except.ok ()) "etherscan.io"
          "0xOnlyAddress" = (⟨[], [], []⟩, some PyErr.indexError) ∧
        (contract_scraping_cycle (fun _ => none) (fun _ => Except.ok ()) "etherscan.io"
            [("0xOnlyAddress", "0xOnlyAddress")]).2 = some PyErr.indexError) :=
  ⟨by decide,
    contract_scraping_short_value_index_error (fun _ => none) (fun _ => Except.ok ())
      "etherscan.io" "0xOnlyAddress" "0xOnlyAddress" [] (by decide)⟩
